import Mathlib

/-!
Verification of the zeus-go job-scheduling core (pkg/scheduler).

Shallow embedding conventions:
* `time.Duration` values and the `float64` backoff arithmetic are modelled
  exactly over `ℚ` (the spec's formulas are about ideal arithmetic; the
  code's float rounding / duration truncation is idealized away).
* Go `int` fields are `ℤ`; loop counters that are provably non-negative
  are `ℕ`.
* A fallible operation is a function from the invocation index (0-based)
  to `Option ε`: `none` is a nil error (success), `some e` is an error.
* Side effects that only log are dropped; sleeps and retry callbacks are
  recorded in an explicit trace so claims about them can be stated.
-/

/-- `BackoffStrategy` constants from pkg/scheduler/config.go
(`BackoffNone`, `BackoffFixed`, `BackoffExponential`). -/
inductive BackoffStrategy
  | none
  | fixed
  | exponential
deriving DecidableEq, Repr

/-- `JobOptions` from pkg/scheduler/config.go (only the retry/backoff
fields; durations over ℚ, `MaxRetries` is a Go `int`). -/
structure JobOptions where
  MaxRetries : ℤ
  BackoffStrategy : BackoffStrategy
  InitialBackoff : ℚ
  MaxBackoff : ℚ
  BackoffMultiplier : ℚ
deriving DecidableEq, Repr

/-- `noBackoff` from pkg/scheduler/backoff.go. -/
structure noBackoff where
deriving DecidableEq, Repr

/-- `noBackoff.Next`: always zero. -/
def noBackoff.Next (_ : noBackoff) (_ : ℤ) : ℚ := 0

/-- `fixedBackoff` from pkg/scheduler/backoff.go. -/
structure fixedBackoff where
  interval : ℚ
deriving DecidableEq, Repr

/-- `fixedBackoff.Next`: returns the interval for every attempt. -/
def fixedBackoff.Next (b : fixedBackoff) (_ : ℤ) : ℚ := b.interval

/-- `exponentialBackoff` from pkg/scheduler/backoff.go. -/
structure exponentialBackoff where
  initial : ℚ
  max : ℚ
  multiplier : ℚ
deriving DecidableEq, Repr

/-- `exponentialBackoff.Next` from pkg/scheduler/backoff.go:
`attempt <= 0` returns `initial`; otherwise
`backoff := initial * multiplier^(attempt-1)`, capped at `max`. -/
def exponentialBackoff.Next (b : exponentialBackoff) (attempt : ℤ) : ℚ :=
  if attempt ≤ 0 then b.initial
  else
    let backoff := b.initial * b.multiplier ^ (attempt - 1).toNat
    if backoff > b.max then b.max else backoff

/-- The `Backoff` interface: one constructor per implementation. -/
inductive Backoff
  | no (b : noBackoff)
  | fixed (b : fixedBackoff)
  | exponential (b : exponentialBackoff)
deriving DecidableEq, Repr

/-- Dynamic dispatch of `Backoff.Next`. -/
def Backoff.Next : Backoff → ℤ → ℚ
  | .no b, a => b.Next a
  | .fixed b, a => b.Next a
  | .exponential b, a => b.Next a

/-- `NewBackoff` from pkg/scheduler/backoff.go: `fixed` and `exponential`
pick their implementation, the default branch is `noBackoff`. -/
def NewBackoff (opts : JobOptions) : Backoff :=
  match opts.BackoffStrategy with
  | .fixed => .fixed ⟨opts.InitialBackoff⟩
  | .exponential => .exponential ⟨opts.InitialBackoff, opts.MaxBackoff, opts.BackoffMultiplier⟩
  | .none => .no ⟨⟩

/-- `RetryExecutor` from pkg/scheduler/backoff.go. -/
structure RetryExecutor where
  options : JobOptions
  backoff : Backoff

/-- `NewRetryExecutor` from pkg/scheduler/backoff.go. -/
def NewRetryExecutor (opts : JobOptions) : RetryExecutor :=
  { options := opts, backoff := NewBackoff opts }

/-- Result of one `Execute`/`ExecuteWithCallback` run: the returned error
(`none` = nil), the number of invocations of the operation, and the traces
of sleeps and `onRetry` callback invocations (in order). -/
structure RetryResult (ε : Type) where
  err : Option ε
  calls : ℕ
  sleeps : List ℚ
  retryCbs : List (ℕ × Option ε × ℚ)
deriving DecidableEq, Repr

/-- The retry loop of `RetryExecutor.Execute` (backoff.go lines 102-118),
as a recursion on the remaining loop iterations: `attempt` is the Go loop
counter, `fuel` the number of iterations left, `lastErr` the Go `lastErr`
variable. Each iteration: if `attempt > 0`, compute the backoff and sleep
when it is positive; call the operation; stop on success. -/
def RetryExecutor.executeFrom {ε : Type} (r : RetryExecutor) (fn : ℕ → Option ε) :
    ℕ → ℕ → Option ε → RetryResult ε
  | _, 0, lastErr => ⟨lastErr, 0, [], []⟩
  | attempt, fuel + 1, _ =>
    let sleeps :=
      if 0 < attempt then
        (let d := r.backoff.Next (attempt : ℤ); if 0 < d then [d] else [])
      else []
    match fn attempt with
    | Option.none => ⟨Option.none, 1, sleeps, []⟩
    | some e =>
      let rest := RetryExecutor.executeFrom r fn (attempt + 1) fuel (some e)
      ⟨rest.err, rest.calls + 1, sleeps ++ rest.sleeps, rest.retryCbs⟩

/-- `RetryExecutor.Execute` from pkg/scheduler/backoff.go: when
`MaxRetries <= 0` or the strategy is `None`, one call, result returned
verbatim; otherwise the loop over attempts `0..MaxRetries`. -/
def RetryExecutor.Execute {ε : Type} (r : RetryExecutor) (fn : ℕ → Option ε) : RetryResult ε :=
  if r.options.MaxRetries ≤ 0 ∨ r.options.BackoffStrategy = .none then
    ⟨fn 0, 1, [], []⟩
  else
    RetryExecutor.executeFrom r fn 0 (r.options.MaxRetries + 1).toNat Option.none

/-- The retry loop of `RetryExecutor.ExecuteWithCallback` (backoff.go
lines 127-145). `hasCb` models `onRetry != nil`; the callback invocation
`(attempt, lastErr, backoff)` is recorded in the trace before the sleep,
exactly as in the source. -/
def RetryExecutor.executeCbFrom {ε : Type} (r : RetryExecutor) (fn : ℕ → Option ε)
    (hasCb : Bool) : ℕ → ℕ → Option ε → RetryResult ε
  | _, 0, lastErr => ⟨lastErr, 0, [], []⟩
  | attempt, fuel + 1, lastErr =>
    let d := r.backoff.Next (attempt : ℤ)
    let cbs := if 0 < attempt ∧ hasCb = true then [(attempt, lastErr, d)] else []
    let sleeps := if 0 < attempt ∧ 0 < d then [d] else []
    match fn attempt with
    | Option.none => ⟨Option.none, 1, sleeps, cbs⟩
    | some e =>
      let rest := RetryExecutor.executeCbFrom r fn hasCb (attempt + 1) fuel (some e)
      ⟨rest.err, rest.calls + 1, sleeps ++ rest.sleeps, cbs ++ rest.retryCbs⟩

/-- `RetryExecutor.ExecuteWithCallback` from pkg/scheduler/backoff.go. -/
def RetryExecutor.ExecuteWithCallback {ε : Type} (r : RetryExecutor) (fn : ℕ → Option ε)
    (hasCb : Bool) : RetryResult ε :=
  if r.options.MaxRetries ≤ 0 ∨ r.options.BackoffStrategy = .none then
    ⟨fn 0, 1, [], []⟩
  else
    RetryExecutor.executeCbFrom r fn hasCb 0 (r.options.MaxRetries + 1).toNat Option.none

/-! ## Scheduler core (pkg/scheduler/scheduler.go, config.go, job.go) -/

/-- `MiddlewareConfig` from pkg/scheduler/config.go. -/
structure MiddlewareConfig where
  Logging : Bool
  Recovery : Bool
  Metrics : Bool
deriving DecidableEq, Repr

/-- `Config` from pkg/scheduler/config.go (the fields `wrapJob` reads). -/
structure Config where
  SkipIfStillRunning : Bool
  Middleware : MiddlewareConfig
deriving DecidableEq, Repr

/-- Outcome of one invocation of the user's job function: nil error,
an error, or a panic with a payload. -/
inductive Outcome (α : Type)
  | ok
  | err (e : α)
  | panicOut (p : α)
deriving DecidableEq, Repr

/-- The error value held by `jobErr` in `wrapJob`: either the error the
retried execution returned, or `fmt.Errorf("job panicked: %v", r)` built
by the recovery middleware from the panic payload. -/
inductive JobError (α : Type)
  | fromErr (e : α)
  | panicked (p : α)
deriving DecidableEq, Repr

/-- Result of running `executor.ExecuteWithCallback` inside `wrapJob`,
where the operation may panic: the outcome seen at `wrapJob` level (a
panic aborts the retry loop and propagates out of the executor) and the
number of invocations of the user function. -/
structure PanicRetryResult (α : Type) where
  outcome : Outcome α
  calls : ℕ
deriving DecidableEq, Repr

/-- The retry loop of `ExecuteWithCallback` as entered from `wrapJob`,
lifted to operations that may panic: an `err` result is retried exactly
as in `RetryExecutor.executeCbFrom`, a panic propagates immediately (the
`recover` sits in `wrapJob`, outside the loop). Sleeps and the
logging-only `onRetry` callback have no state effect and are omitted. -/
def pExecFrom {α : Type} (beh : ℕ → Outcome α) : ℕ → ℕ → Option α → PanicRetryResult α
  | _, 0, lastErr =>
    ⟨match lastErr with | Option.none => .ok | some e => .err e, 0⟩
  | attempt, fuel + 1, _ =>
    match beh attempt with
    | .ok => ⟨.ok, 1⟩
    | .panicOut p => ⟨.panicOut p, 1⟩
    | .err e =>
      let rest := pExecFrom beh (attempt + 1) fuel (some e)
      ⟨rest.outcome, rest.calls + 1⟩

/-- `ExecuteWithCallback` as invoked by `wrapJob` (operation may panic):
same `MaxRetries <= 0 || BackoffStrategy == None` guard, then the loop
over attempts `0..MaxRetries`. -/
def pExecute {α : Type} (opts : JobOptions) (beh : ℕ → Outcome α) : PanicRetryResult α :=
  if opts.MaxRetries ≤ 0 ∨ opts.BackoffStrategy = .none then
    match beh 0 with
    | .ok => ⟨.ok, 1⟩
    | .err e => ⟨.err e, 1⟩
    | .panicOut p => ⟨.panicOut p, 1⟩
  else
    pExecFrom beh 0 (opts.MaxRetries + 1).toNat Option.none

/-- The runtime state of a `jobEntry` (pkg/scheduler/job.go): the fields
`wrapJob` mutates. `lastRun` timestamps are abstract integers. -/
structure EntryState where
  runCount : ℤ
  failCount : ℤ
  running : Bool
  lastRun : ℤ
deriving DecidableEq, Repr

/-- Result of one run of the closure built by `Scheduler.wrapJob`: the
entry's state afterwards, the number of user-function invocations, the
final `jobErr` value, and a panic that escaped the closure (only possible
with recovery disabled). -/
structure WrapResult (α : Type) where
  entry : EntryState
  calls : ℕ
  jobErr : Option (JobError α)
  panicked : Option α
deriving DecidableEq, Repr

/-- One run of the closure built by `Scheduler.wrapJob` (scheduler.go
lines 142-233), as a transformer of the entry state:
1. if `SkipIfStillRunning && entry.IsRunning()`, return with no effect;
2. otherwise set `running`, record `lastRun = now`, run the retry
   executor on the user function;
3. deferred blocks run in LIFO order: recovery (when enabled) turns a
   propagating panic into `jobErr`, then the stats block increments
   `runCount` and, when `jobErr != nil`, `failCount` (it runs even while
   a panic is propagating, in which case `jobErr` is still nil), then
   `running` is cleared. -/
def wrapJobRun {α : Type} (cfg : Config) (opts : JobOptions) (beh : ℕ → Outcome α)
    (st : EntryState) (now : ℤ) : WrapResult α :=
  if cfg.SkipIfStillRunning && st.running then
    ⟨st, 0, Option.none, Option.none⟩
  else
    let r := pExecute opts beh
    let recovered : Option (JobError α) × Option α :=
      match r.outcome with
      | .ok => (Option.none, Option.none)
      | .err e => (some (.fromErr e), Option.none)
      | .panicOut p =>
        if cfg.Middleware.Recovery then (some (.panicked p), Option.none)
        else (Option.none, some p)
    ⟨{ runCount := st.runCount + 1,
       failCount := st.failCount + (if recovered.1.isSome then 1 else 0),
       running := false,
       lastRun := now },
     r.calls, recovered.1, recovered.2⟩

/-- Scheduler errors surfaced by `RunNow` (scheduler.go line 349). -/
inductive SchedError
  | jobNotFound (id : ℤ)
deriving DecidableEq, Repr

/-- The scheduler state the `RunNow`/`Stop` claims need: the `jobs`
registry (the Go map, as a partial function on `JobID`) and the
`running` lifecycle flag. -/
structure SchedulerState where
  jobs : ℤ → Option EntryState
  running : Bool

/-- Result of `Scheduler.RunNow`: the returned error and whether a
wrapped execution was submitted to the worker pool. -/
structure RunNowResult where
  err : Option SchedError
  submitted : Bool
deriving DecidableEq, Repr

/-- `Scheduler.RunNow` from scheduler.go lines 343-359: look the id up in
`jobs`; unknown ids fail with the not-found error; otherwise the wrapped
job is submitted to the pool and nil is returned. No other state is
consulted. -/
def Scheduler.RunNow (s : SchedulerState) (id : ℤ) : RunNowResult :=
  match s.jobs id with
  | Option.none => ⟨some (.jobNotFound id), false⟩
  | some _ => ⟨Option.none, true⟩

/-- `Scheduler.Stop` from scheduler.go lines 269-283: idempotent, clears
the `running` flag. -/
def Scheduler.Stop (s : SchedulerState) : SchedulerState :=
  if s.running then { s with running := false } else s

/-! ## Interleaving model of two concurrent firings of one job

`wrapJob` guards against overlap with `entry.IsRunning()` (an atomic
load) followed later by `entry.running.Store(true)` (an atomic store).
The two operations are separate atomic actions, so two firings of the
same job (cron runs each firing in its own goroutine, and `RunNow` adds
another concurrent path) may interleave between them. Each firing is a
thread stepping through: the skip check, the store of `running = true`
together with the start of the user function, and the deferred store of
`running = false`. `SkipIfStillRunning` is enabled. -/

/-- Program counter of one firing of the wrapped job. -/
inductive FiringPc
  | start
  | passed
  | executing
  | done (ran : Bool)
deriving DecidableEq, Repr

/-- Shared state: the entry's `running` flag and the two firings. -/
structure RaceState where
  running : Bool
  t1 : FiringPc
  t2 : FiringPc
deriving DecidableEq, Repr

/-- Atomic steps of the two firings: the skip check reads `running`
(skipping when true, proceeding when false), entering stores
`running = true` and begins the user function, exiting stores
`running = false` (the deferred store). -/
inductive RaceStep : RaceState → RaceState → Prop
  | skip1 (t2 : FiringPc) : RaceStep ⟨true, .start, t2⟩ ⟨true, .done false, t2⟩
  | pass1 (t2 : FiringPc) : RaceStep ⟨false, .start, t2⟩ ⟨false, .passed, t2⟩
  | enter1 (r : Bool) (t2 : FiringPc) : RaceStep ⟨r, .passed, t2⟩ ⟨true, .executing, t2⟩
  | exit1 (r : Bool) (t2 : FiringPc) : RaceStep ⟨r, .executing, t2⟩ ⟨false, .done true, t2⟩
  | skip2 (t1 : FiringPc) : RaceStep ⟨true, t1, .start⟩ ⟨true, t1, .done false⟩
  | pass2 (t1 : FiringPc) : RaceStep ⟨false, t1, .start⟩ ⟨false, t1, .passed⟩
  | enter2 (r : Bool) (t1 : FiringPc) : RaceStep ⟨r, t1, .passed⟩ ⟨true, t1, .executing⟩
  | exit2 (r : Bool) (t1 : FiringPc) : RaceStep ⟨r, t1, .executing⟩ ⟨false, t1, .done true⟩

/-- Initial state: the job idle, two firings about to run the check. -/
def raceInit : RaceState := ⟨false, .start, .start⟩

/-! ## Lemmas about the retry loop -/

lemma executeFrom_calls_le {ε : Type} (r : RetryExecutor) (fn : ℕ → Option ε) :
    ∀ fuel attempt lastErr,
      (RetryExecutor.executeFrom r fn attempt fuel lastErr).calls ≤ fuel := by
  intro fuel
  induction fuel with
  | zero => intro attempt lastErr; simp [RetryExecutor.executeFrom]
  | succ f ih =>
    intro attempt lastErr
    cases hfa : fn attempt with
    | none => simp [RetryExecutor.executeFrom, hfa]
    | some e =>
      have h := ih (attempt + 1) (some e)
      simp [RetryExecutor.executeFrom, hfa]
      omega

lemma executeFrom_success {ε : Type} (r : RetryExecutor) (fn : ℕ → Option ε) :
    ∀ fuel attempt lastErr i, i < fuel →
      (∀ j, j < i → fn (attempt + j) ≠ Option.none) →
      fn (attempt + i) = Option.none →
      (RetryExecutor.executeFrom r fn attempt fuel lastErr).err = Option.none ∧
      (RetryExecutor.executeFrom r fn attempt fuel lastErr).calls = i + 1 := by
  intro fuel
  induction fuel with
  | zero => intro attempt lastErr i hi; exact absurd hi (Nat.not_lt_zero i)
  | succ f ih =>
    intro attempt lastErr i hi hprev hcur
    cases i with
    | zero =>
      rw [Nat.add_zero] at hcur
      simp [RetryExecutor.executeFrom, hcur]
    | succ k =>
      have h0 : fn attempt ≠ Option.none := by
        have h := hprev 0 (Nat.succ_pos k)
        simpa using h
      cases hfa : fn attempt with
      | none => exact absurd hfa h0
      | some e =>
        have hrec := ih (attempt + 1) (some e) k (by omega)
          (fun j hj => by
            have e1 : attempt + 1 + j = attempt + (j + 1) := by omega
            rw [e1]; exact hprev (j + 1) (by omega))
          (by
            have e1 : attempt + 1 + k = attempt + (k + 1) := by omega
            rw [e1]; exact hcur)
        simp [RetryExecutor.executeFrom, hfa]
        exact ⟨hrec.1, by omega⟩

lemma executeFrom_succ_err {ε : Type} (r : RetryExecutor) (fn : ℕ → Option ε)
    (attempt f : ℕ) (lastErr : Option ε) (e : ε) (hfa : fn attempt = some e) :
    (RetryExecutor.executeFrom r fn attempt (f + 1) lastErr).err =
    (RetryExecutor.executeFrom r fn (attempt + 1) f (some e)).err := by
  simp [RetryExecutor.executeFrom, hfa]

lemma executeFrom_succ_calls {ε : Type} (r : RetryExecutor) (fn : ℕ → Option ε)
    (attempt f : ℕ) (lastErr : Option ε) (e : ε) (hfa : fn attempt = some e) :
    (RetryExecutor.executeFrom r fn attempt (f + 1) lastErr).calls =
    (RetryExecutor.executeFrom r fn (attempt + 1) f (some e)).calls + 1 := by
  simp [RetryExecutor.executeFrom, hfa]

lemma executeFrom_allfail {ε : Type} (r : RetryExecutor) (fn : ℕ → Option ε) :
    ∀ fuel attempt lastErr, 0 < fuel →
      (∀ i, i < fuel → fn (attempt + i) ≠ Option.none) →
      (RetryExecutor.executeFrom r fn attempt fuel lastErr).err = fn (attempt + (fuel - 1)) ∧
      (RetryExecutor.executeFrom r fn attempt fuel lastErr).calls = fuel := by
  intro fuel
  induction fuel with
  | zero => intro attempt lastErr h; exact absurd h (Nat.lt_irrefl 0)
  | succ f ih =>
    intro attempt lastErr _ hall
    have h0 : fn attempt ≠ Option.none := by
      have h := hall 0 (Nat.succ_pos f)
      simpa using h
    cases hfa : fn attempt with
    | none => exact absurd hfa h0
    | some e =>
      rw [executeFrom_succ_err r fn attempt f lastErr e hfa,
        executeFrom_succ_calls r fn attempt f lastErr e hfa]
      cases f with
      | zero => simp [RetryExecutor.executeFrom, hfa]
      | succ g =>
        have hrec := ih (attempt + 1) (some e) (Nat.succ_pos g)
          (fun i hi => by
            have e1 : attempt + 1 + i = attempt + (i + 1) := by omega
            rw [e1]; exact hall (i + 1) (by omega))
        have e2 : attempt + 1 + (g + 1 - 1) = attempt + (g + 1 + 1 - 1) := by omega
        rw [e2] at hrec
        exact ⟨hrec.1, by omega⟩

lemma executeCbFrom_no_cb {ε : Type} (r : RetryExecutor) (fn : ℕ → Option ε) :
    ∀ fuel attempt lastErr,
      RetryExecutor.executeCbFrom r fn false attempt fuel lastErr =
      RetryExecutor.executeFrom r fn attempt fuel lastErr := by
  intro fuel
  induction fuel with
  | zero => intro attempt lastErr; rfl
  | succ f ih =>
    intro attempt lastErr
    have hsl :
        (if 0 < attempt ∧ 0 < r.backoff.Next (attempt : ℤ)
          then [r.backoff.Next (attempt : ℤ)] else []) =
        (if 0 < attempt
          then (if 0 < r.backoff.Next (attempt : ℤ)
            then [r.backoff.Next (attempt : ℤ)] else [])
          else []) := by
      by_cases h1 : 0 < attempt <;> by_cases h2 : 0 < r.backoff.Next (attempt : ℤ) <;>
        simp [h1, h2]
    cases hfa : fn attempt with
    | none => simp [RetryExecutor.executeCbFrom, RetryExecutor.executeFrom, hfa, hsl]
    | some e =>
      simp [RetryExecutor.executeCbFrom, RetryExecutor.executeFrom, hfa, hsl, ih]

/-- Claim C1: with `MaxRetries > 0` and a strategy other than `None`, the
operation is invoked at most `MaxRetries + 1` times; `Execute` returns nil
as soon as an invocation returns nil and stops invoking the operation
(the first nil at index `k` means exactly `k + 1` invocations); if every
invocation fails, the last observed error is returned. -/
theorem c1_retry_loop_semantics {ε : Type} (opts : JobOptions) (fn : ℕ → Option ε)
    (hr : 0 < opts.MaxRetries) (hs : opts.BackoffStrategy ≠ .none) :
    ((NewRetryExecutor opts).Execute fn).calls ≤ opts.MaxRetries.toNat + 1
    ∧ (∀ k, k ≤ opts.MaxRetries.toNat →
        (∀ j, j < k → fn j ≠ Option.none) → fn k = Option.none →
        ((NewRetryExecutor opts).Execute fn).err = Option.none ∧
        ((NewRetryExecutor opts).Execute fn).calls = k + 1)
    ∧ ((∀ k, k ≤ opts.MaxRetries.toNat → fn k ≠ Option.none) →
        ((NewRetryExecutor opts).Execute fn).err = fn opts.MaxRetries.toNat) := by
  have hguard : ¬((NewRetryExecutor opts).options.MaxRetries ≤ 0 ∨
      (NewRetryExecutor opts).options.BackoffStrategy = .none) := by
    simp only [NewRetryExecutor, not_or]
    exact ⟨by omega, hs⟩
  have hfu : ((NewRetryExecutor opts).options.MaxRetries + 1).toNat =
      opts.MaxRetries.toNat + 1 := by
    simp only [NewRetryExecutor]
    omega
  have hex : (NewRetryExecutor opts).Execute fn =
      RetryExecutor.executeFrom (NewRetryExecutor opts) fn 0
        (opts.MaxRetries.toNat + 1) Option.none := by
    unfold RetryExecutor.Execute
    rw [if_neg hguard, hfu]
  rw [hex]
  refine ⟨executeFrom_calls_le _ _ _ _ _, ?_, ?_⟩
  · intro k hk hprev hcur
    exact executeFrom_success (NewRetryExecutor opts) fn (opts.MaxRetries.toNat + 1) 0
      Option.none k (by omega)
      (fun j hj => by simpa using hprev j hj) (by simpa using hcur)
  · intro hall
    have h := executeFrom_allfail (NewRetryExecutor opts) fn (opts.MaxRetries.toNat + 1) 0
      Option.none (Nat.succ_pos _) (fun i hi => by simpa using hall i (by omega))
    simpa using h.1

/-- Concrete options for the C1 witness: `MaxRetries = 3`, `Fixed`,
`InitialBackoff = 10`. -/
def optsC1 : JobOptions := ⟨3, .fixed, 10, 0, 0⟩

/-- Operation failing on its first two calls, succeeding on the third. -/
def fnC1 : ℕ → Option ℕ := fun k => if k < 2 then some 1 else Option.none

/-- Witness for C1: the spec's own example — 3 invocations, success. -/
theorem c1_retry_loop_semantics_witness :
    ((NewRetryExecutor optsC1).Execute fnC1).err = Option.none ∧
    ((NewRetryExecutor optsC1).Execute fnC1).calls = 3 := by
  have h := c1_retry_loop_semantics optsC1 fnC1 (by decide) (by decide)
  have h2 := h.2.1 2 (by decide) (by decide) (by decide)
  exact ⟨h2.1, h2.2⟩

/-- Claim C3: with `MaxRetries <= 0` or strategy `None`, both `Execute`
and `ExecuteWithCallback` invoke the operation exactly once and return its
result unchanged, with no sleep and no retry-callback invocation,
whatever the operation returns. -/
theorem c3_no_retry_single_call {ε : Type} (opts : JobOptions) (fn : ℕ → Option ε)
    (hasCb : Bool) (h : opts.MaxRetries ≤ 0 ∨ opts.BackoffStrategy = .none) :
    (NewRetryExecutor opts).Execute fn = ⟨fn 0, 1, [], []⟩ ∧
    (NewRetryExecutor opts).ExecuteWithCallback fn hasCb = ⟨fn 0, 1, [], []⟩ := by
  have hguard : (NewRetryExecutor opts).options.MaxRetries ≤ 0 ∨
      (NewRetryExecutor opts).options.BackoffStrategy = .none := h
  unfold RetryExecutor.Execute RetryExecutor.ExecuteWithCallback
  rw [if_pos hguard, if_pos hguard]
  exact ⟨rfl, rfl⟩

/-- Concrete options for the C3 witness: `MaxRetries = 0`. -/
def optsC3 : JobOptions := ⟨0, .exponential, 1, 30, 2⟩

/-- Failing operation for the C3 witness. -/
def fnC3 : ℕ → Option ℕ := fun _ => some 4

/-- Witness for C3: one invocation, the error returned verbatim, no
sleeps, no callbacks. -/
theorem c3_no_retry_single_call_witness :
    (NewRetryExecutor optsC3).Execute fnC3 = ⟨some 4, 1, [], []⟩ ∧
    (NewRetryExecutor optsC3).ExecuteWithCallback fnC3 true = ⟨some 4, 1, [], []⟩ :=
  c3_no_retry_single_call optsC3 fnC3 true (Or.inl (by decide))

/-- Claim C10: for every operation and every `JobOptions` value,
`ExecuteWithCallback` with no callback supplied returns exactly the same
result (error, invocation count, sleeps, callbacks) as `Execute`. -/
theorem c10_execute_with_nil_callback_equiv {ε : Type} (opts : JobOptions)
    (fn : ℕ → Option ε) :
    (NewRetryExecutor opts).ExecuteWithCallback fn false =
    (NewRetryExecutor opts).Execute fn := by
  unfold RetryExecutor.ExecuteWithCallback RetryExecutor.Execute
  by_cases h : (NewRetryExecutor opts).options.MaxRetries ≤ 0 ∨
      (NewRetryExecutor opts).options.BackoffStrategy = .none
  · rw [if_pos h, if_pos h]
  · rw [if_neg h, if_neg h]
    exact executeCbFrom_no_cb _ _ _ _ _

/-! ## Lemmas about the exponential backoff -/

lemma expNext_eq_min (b : exponentialBackoff) (a : ℤ) (ha : 1 ≤ a) :
    b.Next a = min (b.initial * b.multiplier ^ (a - 1).toNat) b.max := by
  unfold exponentialBackoff.Next
  rw [if_neg (by omega)]
  by_cases hx : b.initial * b.multiplier ^ (a - 1).toNat > b.max
  · rw [if_pos hx, min_eq_right hx.le]
  · push_neg at hx
    rw [if_neg (by push_neg; exact hx), min_eq_left hx]

lemma expNext_pow_mono (b : exponentialBackoff) (h0 : 0 ≤ b.initial)
    (hm : 1 ≤ b.multiplier) (n : ℕ) :
    b.initial * b.multiplier ^ n ≤ b.initial * b.multiplier ^ (n + 1) :=
  mul_le_mul_of_nonneg_left (pow_le_pow_right₀ hm (Nat.le_succ n)) h0

/-- Claim C2: for the exponential backoff with a valid configuration
(non-negative `InitialBackoff`, `InitialBackoff ≤ MaxBackoff`,
`BackoffMultiplier ≥ 1`), `Next(attempt)` for `attempt ≥ 1` equals
`min(InitialBackoff * BackoffMultiplier^(attempt-1), MaxBackoff)`;
`Next(1)` is `InitialBackoff`; `Next` is non-decreasing in the attempt
number; once it reaches `MaxBackoff` it stays at `MaxBackoff`. -/
theorem c2_exponential_backoff (b : exponentialBackoff) (h0 : 0 ≤ b.initial)
    (h1 : b.initial ≤ b.max) (hm : 1 ≤ b.multiplier) :
    (∀ a : ℤ, 1 ≤ a →
      b.Next a = min (b.initial * b.multiplier ^ (a - 1).toNat) b.max)
    ∧ b.Next 1 = b.initial
    ∧ (∀ a : ℤ, 1 ≤ a → b.Next a ≤ b.Next (a + 1))
    ∧ (∀ a : ℤ, 1 ≤ a → b.Next a = b.max → b.Next (a + 1) = b.max) := by
  have hn : ∀ a : ℤ, 1 ≤ a → (a + 1 - 1).toNat = (a - 1).toNat + 1 := by
    intro a ha; omega
  refine ⟨fun a ha => expNext_eq_min b a ha, ?_, ?_, ?_⟩
  · rw [expNext_eq_min b 1 le_rfl]
    simp only [show ((1 : ℤ) - 1).toNat = 0 from rfl, pow_zero, mul_one]
    exact min_eq_left h1
  · intro a ha
    rw [expNext_eq_min b a ha, expNext_eq_min b (a + 1) (by omega), hn a ha]
    exact min_le_min (expNext_pow_mono b h0 hm _) le_rfl
  · intro a ha hcap
    rw [expNext_eq_min b a ha] at hcap
    rw [expNext_eq_min b (a + 1) (by omega), hn a ha]
    have hle : b.max ≤ b.initial * b.multiplier ^ (a - 1).toNat :=
      min_eq_right_iff.mp hcap
    exact min_eq_right (le_trans hle (expNext_pow_mono b h0 hm _))

/-- Concrete exponential backoff for the C2 witness:
initial 1, max 4, multiplier 2. -/
def expC2 : exponentialBackoff := ⟨1, 4, 2⟩

/-- Witness for C2: `Next 1 = 1`, `Next 2 ≤ Next 3`, `Next 2 = min 2 4`. -/
theorem c2_exponential_backoff_witness :
    expC2.Next 1 = (1 : ℚ)
    ∧ expC2.Next 2 ≤ expC2.Next 3
    ∧ expC2.Next 2 = min ((1 : ℚ) * 2 ^ (1 : ℕ)) 4 := by
  have h := c2_exponential_backoff expC2 (by norm_num [expC2]) (by norm_num [expC2])
    (by norm_num [expC2])
  refine ⟨?_, h.2.2.1 2 (by norm_num), ?_⟩
  · have h2 := h.2.1
    simpa [expC2] using h2
  · have h3 := h.1 2 (by norm_num)
    simpa [expC2] using h3

/-- Claim C8: for the exponential backoff with
`InitialBackoff ≤ MaxBackoff`, every `attempt ≤ 0` is treated as attempt
1: `Next(attempt) = Next(1)`, and `Next(1)` equals
`min(InitialBackoff * BackoffMultiplier^0, MaxBackoff)`. -/
theorem c8_nonpositive_attempt (b : exponentialBackoff) (h1 : b.initial ≤ b.max)
    (a : ℤ) (ha : a ≤ 0) :
    b.Next a = b.Next 1
    ∧ b.Next 1 = min (b.initial * b.multiplier ^ (0 : ℕ)) b.max := by
  have hone : b.Next 1 = min (b.initial * b.multiplier ^ (0 : ℕ)) b.max := by
    have h := expNext_eq_min b 1 le_rfl
    simpa using h
  have hlow : b.Next a = b.initial := by
    unfold exponentialBackoff.Next
    rw [if_pos ha]
  refine ⟨?_, hone⟩
  rw [hlow, hone]
  simpa using min_eq_left h1

/-- Witness for C8: attempt -3 behaves like attempt 1 on `⟨1, 4, 2⟩`. -/
theorem c8_nonpositive_attempt_witness :
    exponentialBackoff.Next ⟨1, 4, 2⟩ (-3) = exponentialBackoff.Next ⟨1, 4, 2⟩ 1
    ∧ exponentialBackoff.Next ⟨1, 4, 2⟩ 1 =
      min ((1 : ℚ) * 2 ^ (0 : ℕ)) 4 :=
  c8_nonpositive_attempt ⟨1, 4, 2⟩ (by norm_num) (-3) (by norm_num)

/-! ## The execution wrapper -/

/-- Claim C4: when `SkipIfStillRunning` is enabled and the entry's
`running` flag is already set, the wrapper returns without side effects:
the entry state (`runCount`, `failCount`, `lastRun`, `running`) is
unchanged and the user's job function is not invoked. -/
theorem c4_skip_no_side_effects {α : Type} (cfg : Config) (opts : JobOptions)
    (beh : ℕ → Outcome α) (st : EntryState) (now : ℤ)
    (hskip : cfg.SkipIfStillRunning = true) (hrun : st.running = true) :
    wrapJobRun cfg opts beh st now = ⟨st, 0, Option.none, Option.none⟩ := by
  unfold wrapJobRun
  rw [hskip, hrun]
  rfl

/-- Witness for C4: a running entry under skip policy is left untouched
and the (failing) job function is never called. -/
theorem c4_skip_no_side_effects_witness :
    wrapJobRun ⟨true, ⟨true, true, false⟩⟩ ⟨3, .exponential, 1, 30, 2⟩
      (fun _ => Outcome.err 3) ⟨5, 2, true, 9⟩ 11 =
    ⟨⟨5, 2, true, 9⟩, 0, Option.none, Option.none⟩ :=
  c4_skip_no_side_effects ⟨true, ⟨true, true, false⟩⟩ ⟨3, .exponential, 1, 30, 2⟩
    (fun _ => Outcome.err 3) ⟨5, 2, true, 9⟩ 11 rfl rfl

/-- Claim C5: with panic recovery enabled, a panic escaping the retried
execution of the user function is converted into an error carrying the
panic payload and counted like an ordinary failure: `runCount` and
`failCount` each grow by one, the `running` flag ends cleared, and no
panic propagates out of the wrapper. -/
theorem c5_panic_recovered_as_error {α : Type} (cfg : Config) (opts : JobOptions)
    (beh : ℕ → Outcome α) (st : EntryState) (now : ℤ) (p : α)
    (hrec : cfg.Middleware.Recovery = true)
    (hns : (cfg.SkipIfStillRunning && st.running) = false)
    (hp : (pExecute opts beh).outcome = .panicOut p) :
    (wrapJobRun cfg opts beh st now).jobErr = some (.panicked p)
    ∧ (wrapJobRun cfg opts beh st now).entry.runCount = st.runCount + 1
    ∧ (wrapJobRun cfg opts beh st now).entry.failCount = st.failCount + 1
    ∧ (wrapJobRun cfg opts beh st now).entry.running = false
    ∧ (wrapJobRun cfg opts beh st now).panicked = Option.none := by
  unfold wrapJobRun
  rw [hns]
  simp [hp, hrec]

/-- Configuration for the C5 witness: skip policy and recovery on. -/
def cfgC5 : Config := ⟨true, ⟨true, true, false⟩⟩

/-- Job behavior for the C5 witness: panics on every invocation. -/
def behC5 : ℕ → Outcome ℕ := fun _ => .panicOut 7

/-- Witness for C5: a panicking job on an idle entry is recorded as one
run and one failure, the payload lands in the error, nothing escapes. -/
theorem c5_panic_recovered_as_error_witness :
    (wrapJobRun cfgC5 ⟨3, .exponential, 1, 30, 2⟩ behC5 ⟨0, 0, false, 0⟩ 5).jobErr =
      some (.panicked 7)
    ∧ (wrapJobRun cfgC5 ⟨3, .exponential, 1, 30, 2⟩ behC5 ⟨0, 0, false, 0⟩ 5).entry.runCount = 1
    ∧ (wrapJobRun cfgC5 ⟨3, .exponential, 1, 30, 2⟩ behC5 ⟨0, 0, false, 0⟩ 5).entry.failCount = 1
    ∧ (wrapJobRun cfgC5 ⟨3, .exponential, 1, 30, 2⟩ behC5 ⟨0, 0, false, 0⟩ 5).entry.running = false
    ∧ (wrapJobRun cfgC5 ⟨3, .exponential, 1, 30, 2⟩ behC5 ⟨0, 0, false, 0⟩ 5).panicked =
      Option.none := by
  have h := c5_panic_recovered_as_error cfgC5 ⟨3, .exponential, 1, 30, 2⟩ behC5
    ⟨0, 0, false, 0⟩ 5 7 rfl rfl (by decide)
  exact ⟨h.1, h.2.1, h.2.2.1, h.2.2.2.1, h.2.2.2.2⟩

/-! ## RunNow and Stop -/

/-- Claim C6: `RunNow(id)` returns the not-found error exactly when `id`
is absent from the registry; for a registered id it returns nil and
submits the wrapped execution, even when that entry is currently running,
in which case the submitted firing is dropped by the skip policy with no
effect rather than reported as an error. -/
theorem c6_runNow_not_found_iff {α : Type} (s : SchedulerState) (id : ℤ) :
    ((Scheduler.RunNow s id).err = some (.jobNotFound id) ↔ s.jobs id = Option.none)
    ∧ (∀ e, s.jobs id = some e →
        (Scheduler.RunNow s id).err = Option.none ∧
        (Scheduler.RunNow s id).submitted = true)
    ∧ (∀ e, s.jobs id = some e → e.running = true →
        ∀ (cfg : Config) (opts : JobOptions) (beh : ℕ → Outcome α) (now : ℤ),
          cfg.SkipIfStillRunning = true →
          wrapJobRun cfg opts beh e now = ⟨e, 0, Option.none, Option.none⟩) := by
  refine ⟨?_, ?_, ?_⟩
  · cases hj : s.jobs id <;> simp [Scheduler.RunNow, hj]
  · intro e he
    simp [Scheduler.RunNow, he]
  · intro e _ hrun cfg opts beh now hskip
    unfold wrapJobRun
    rw [hskip, hrun]
    rfl

/-- Registry for the C6 witness: one job, id 1, currently running. -/
def sC6 : SchedulerState :=
  ⟨fun i => if i = 1 then some ⟨1, 0, true, 0⟩ else Option.none, true⟩

/-- Witness for C6: id 2 is unknown and fails; id 1 is known, running,
returns nil, and the submitted firing is dropped without effect. -/
theorem c6_runNow_not_found_iff_witness :
    (Scheduler.RunNow sC6 2).err = some (.jobNotFound 2)
    ∧ (Scheduler.RunNow sC6 1).err = Option.none
    ∧ wrapJobRun ⟨true, ⟨true, true, false⟩⟩ ⟨3, .exponential, 1, 30, 2⟩
        (fun _ => Outcome.err (3 : ℕ)) ⟨1, 0, true, 0⟩ 4 =
      ⟨⟨1, 0, true, 0⟩, 0, Option.none, Option.none⟩ := by
  refine ⟨?_, ?_, ?_⟩
  · exact (c6_runNow_not_found_iff (α := ℕ) sC6 2).1.mpr (by simp [sC6])
  · exact ((c6_runNow_not_found_iff (α := ℕ) sC6 1).2.1 ⟨1, 0, true, 0⟩
      (by simp [sC6])).1
  · exact (c6_runNow_not_found_iff (α := ℕ) sC6 1).2.2 ⟨1, 0, true, 0⟩
      (by simp [sC6]) rfl ⟨true, ⟨true, true, false⟩⟩ ⟨3, .exponential, 1, 30, 2⟩
      (fun _ => Outcome.err 3) 4 rfl

lemma stop_jobs (s : SchedulerState) : (Scheduler.Stop s).jobs = s.jobs := by
  unfold Scheduler.Stop
  by_cases h : s.running <;> simp [h]

lemma stop_not_running (s : SchedulerState) : (Scheduler.Stop s).running = false := by
  unfold Scheduler.Stop
  by_cases h : s.running <;> simp [h]

/-- Counterexample to claim C9 as stated: after `Stop()` the scheduler is
no longer running, yet `RunNow` on the registered id 1 returns nil and
still submits the job to the pool — it does not fail. -/
theorem c9_counterexample :
    (Scheduler.Stop ⟨fun i => if i = 1 then some ⟨0, 0, false, 0⟩ else Option.none,
        true⟩).running = false
    ∧ Scheduler.RunNow
        (Scheduler.Stop ⟨fun i => if i = 1 then some ⟨0, 0, false, 0⟩ else Option.none,
          true⟩) 1 =
      ⟨Option.none, true⟩ := by
  constructor
  · rfl
  · rfl

/-- Claim C9 amended: `RunNow` never consults the lifecycle flag — after
`Stop()` it behaves exactly as before: unknown ids fail with not-found,
and a registered id returns nil and is submitted for execution. -/
theorem c9_runNow_after_stop (s : SchedulerState) (id : ℤ) (e : EntryState)
    (he : s.jobs id = some e) :
    Scheduler.RunNow (Scheduler.Stop s) id = Scheduler.RunNow s id
    ∧ (Scheduler.Stop s).running = false
    ∧ (Scheduler.RunNow (Scheduler.Stop s) id).err = Option.none
    ∧ (Scheduler.RunNow (Scheduler.Stop s) id).submitted = true := by
  have hjobs : (Scheduler.Stop s).jobs = s.jobs := stop_jobs s
  refine ⟨by unfold Scheduler.RunNow; rw [hjobs], stop_not_running s, ?_, ?_⟩
  · unfold Scheduler.RunNow
    rw [hjobs, he]
  · unfold Scheduler.RunNow
    rw [hjobs, he]

/-- Registered scheduler state for the C9 witness. -/
def sC9 : SchedulerState :=
  ⟨fun i => if i = 1 then some ⟨0, 0, false, 0⟩ else Option.none, true⟩

/-- Witness for C9 (amended): on `sC9`, `RunNow 1` after `Stop` returns
nil and submits. -/
theorem c9_runNow_after_stop_witness :
    Scheduler.RunNow (Scheduler.Stop sC9) 1 = Scheduler.RunNow sC9 1
    ∧ (Scheduler.Stop sC9).running = false
    ∧ (Scheduler.RunNow (Scheduler.Stop sC9) 1).err = Option.none
    ∧ (Scheduler.RunNow (Scheduler.Stop sC9) 1).submitted = true :=
  c9_runNow_after_stop sC9 1 ⟨0, 0, false, 0⟩ (by simp [sC9])

/-! ## The skip-policy race -/

/-- Claim C7 is refuted by the code: because the skip check is an atomic
load separate from the later atomic store of `running = true`, there is
an interleaving of two concurrent firings of the same job in which both
pass the check and both execute the user function at the same time — the
at-most-one-in-flight invariant does not hold. The trace: firing 1 checks
(`running` is false), firing 2 checks (still false), firing 1 stores and
executes, firing 2 stores and executes. -/
theorem c7_skip_check_race :
    ∃ s : RaceState, Relation.ReflTransGen RaceStep raceInit s
      ∧ s.t1 = .executing ∧ s.t2 = .executing := by
  refine ⟨⟨true, .executing, .executing⟩, ?_, rfl, rfl⟩
  have h1 : RaceStep raceInit ⟨false, .passed, .start⟩ := RaceStep.pass1 .start
  have h2 : RaceStep ⟨false, .passed, .start⟩ ⟨false, .passed, .passed⟩ :=
    RaceStep.pass2 .passed
  have h3 : RaceStep ⟨false, .passed, .passed⟩ ⟨true, .executing, .passed⟩ :=
    RaceStep.enter1 false .passed
  have h4 : RaceStep ⟨true, .executing, .passed⟩ ⟨true, .executing, .executing⟩ :=
    RaceStep.enter2 true .executing
  exact Relation.ReflTransGen.head h1 (Relation.ReflTransGen.head h2
    (Relation.ReflTransGen.head h3 (Relation.ReflTransGen.single h4)))
